import Mathlib

set_option maxRecDepth 100000

/-!
Verification development for the claude-deep-insights two-stage pipeline:
the Session Compactor (`scripts/preprocess.py`) and the Aggregation &
Insight Engine (`scripts/report.py`).

Python strings are sequences of Unicode code points; we model them as
`List Char`, so Python `s[:n]` is `List.take n`, `len(s)` is `List.length`,
`' '.join(xs)` is `List.intercalate " ".data`, and `'/' in s` (single
character substring test) is list membership.  JSON objects are modelled
by structures whose `Option` fields distinguish an absent key from a
present value, matching `dict.get` with its default.
-/

namespace DeepInsights

/-- Python `str`, modelled as its sequence of code points. -/
abbrev PyStr := List Char

/-- MAX_TEXT_PER_MESSAGE: chars per user/assistant message. -/
def MAX_TEXT_PER_MESSAGE : Nat := 500

/-- MAX_TOOL_RESULT_CHARS: chars per tool result. -/
def MAX_TOOL_RESULT_CHARS : Nat := 200

/-- MAX_CONVERSATION_EXCHANGES: max user+assistant pairs. -/
def MAX_CONVERSATION_EXCHANGES : Nat := 40

/-- MAX_TOOL_DETAILS: max tool calls with full details. -/
def MAX_TOOL_DETAILS : Nat := 30

/-- MAX_FILES_TOUCHED: max file paths to record. -/
def MAX_FILES_TOUCHED : Nat := 30

/-- The `input` dict of a `tool_use` block.  Each field is `none` when the
key is absent; values are coerced with `str(...)` in the source, so we
model them directly as strings. -/
structure ToolInput where
  file_path : Option PyStr := none
  pattern : Option PyStr := none
  path : Option PyStr := none
  command : Option PyStr := none
  query : Option PyStr := none
  url : Option PyStr := none
  description : Option PyStr := none
  subagent_type : Option PyStr := none
  subject : Option PyStr := none
  status : Option PyStr := none
deriving DecidableEq

/-- One content block of a message: a plain string, a `text` dict, a
`thinking` dict, a `tool_use` dict (with its `name`, defaulting to
"unknown" when absent, and its `input`), or any other value. -/
inductive ContentBlock where
  | str (s : PyStr)
  | text (t : PyStr)
  | thinking (t : PyStr)
  | tool_use (name : Option PyStr) (input : ToolInput)
  | other
deriving DecidableEq

/-- Message content: a single string, a list of blocks, or any other
JSON value (which contributes no text and no tool calls). -/
inductive Content where
  | str (s : PyStr)
  | blocks (bs : List ContentBlock)
  | other
deriving DecidableEq

/-- The per-block contributions collected by the loop in
`extract_text_from_content`: a plain string block and a `text` block are
truncated to `max_chars`; a `thinking` block with non-empty text
contributes a bracketed 150-char preview; other blocks contribute
nothing. -/
def block_texts (max_chars : Nat) : ContentBlock → List PyStr
  | .str s => [s.take max_chars]
  | .text t => [t.take max_chars]
  | .thinking t =>
      if t.isEmpty then []
      else ["[thinking: ".data ++ t.take 150 ++ "...]".data]
  | _ => []

/-- `extract_text_from_content(content, max_chars)`: a plain string is
truncated to `max_chars`; a list of blocks yields the space-join of the
per-block contributions; any other value yields the empty string. -/
def extract_text_from_content (content : Content) (max_chars : Nat) : PyStr :=
  match content with
  | .str s => s.take max_chars
  | .blocks bs => List.intercalate " ".data (bs.flatMap (block_texts max_chars))
  | .other => []

/-- The record built for one `tool_use` block: the tool name plus the
kind-specific detail fields set by `extract_tool_calls`. -/
structure ToolInfo where
  name : PyStr
  target : Option PyStr := none
  command : Option PyStr := none
  query : Option PyStr := none
  url : Option PyStr := none
  description : Option PyStr := none
  subagent_type : Option PyStr := none
  subject : Option PyStr := none
deriving DecidableEq

/-- The per-name dispatch inside `extract_tool_calls`: Read/Glob/Grep and
Edit/Write record a 200-char-capped `target`; Bash a 200-char-capped
`command`; WebSearch/WebFetch a 200-char-capped `query`/`url`; Task a
100-char-capped `description` and an uncapped `subagent_type`;
TaskCreate/TaskUpdate a 100-char-capped `subject`; every other name
produces a bare record. -/
def extract_tool_call (name : PyStr) (inp : ToolInput) : ToolInfo :=
  if name = "Read".data ∨ name = "Glob".data ∨ name = "Grep".data then
    { name := name,
      target := some ((inp.file_path.getD (inp.pattern.getD (inp.path.getD []))).take
        MAX_TOOL_RESULT_CHARS) }
  else if name = "Edit".data ∨ name = "Write".data then
    { name := name, target := some ((inp.file_path.getD []).take MAX_TOOL_RESULT_CHARS) }
  else if name = "Bash".data then
    { name := name, command := some ((inp.command.getD []).take MAX_TOOL_RESULT_CHARS) }
  else if name = "WebSearch".data then
    { name := name, query := some ((inp.query.getD []).take MAX_TOOL_RESULT_CHARS) }
  else if name = "WebFetch".data then
    { name := name, url := some ((inp.url.getD []).take MAX_TOOL_RESULT_CHARS) }
  else if name = "Task".data then
    { name := name, description := some ((inp.description.getD []).take 100),
      subagent_type := some (inp.subagent_type.getD []) }
  else if name = "TaskCreate".data ∨ name = "TaskUpdate".data then
    { name := name, subject := some ((inp.subject.getD (inp.status.getD [])).take 100) }
  else
    { name := name }

/-- `extract_tool_calls(content)`: only `tool_use` blocks of a block list
are considered, in order; non-list content yields no tool calls. -/
def extract_tool_calls (content : Content) : List ToolInfo :=
  match content with
  | .blocks bs =>
      bs.flatMap fun b =>
        match b with
        | .tool_use nm inp => [extract_tool_call (nm.getD "unknown".data) inp]
        | _ => []
  | _ => []

/-- Python truthiness of an optional string field (`if obj.get(k):`):
false for an absent key and for the empty string. -/
def optTruthy : Option PyStr → Bool
  | none => false
  | some s => !s.isEmpty

/-- The `message` object of a user/assistant record: its `content`
(missing content behaves like the empty string), its `model`, and its
`usage` token counts (missing counts behave as zero). -/
structure Message where
  content : Content := Content.str []
  model : Option PyStr := none
  input_tokens : Nat := 0
  output_tokens : Nat := 0
deriving DecidableEq

/-- One well-formed JSONL record, as read by `process_session`: its
`type` discriminator, optional `timestamp` and `gitBranch`, the
`summary` text of a summary record, and the nested `message`. -/
structure RawEvent where
  type : Option PyStr := none
  timestamp : Option PyStr := none
  gitBranch : Option PyStr := none
  summary : Option PyStr := none
  message : Message := {}
deriving DecidableEq

/-- One physical line of a session JSONL file: whitespace-only (silently
ignored), unparseable JSON (counted as skipped), or a parsed record. -/
inductive Line where
  | blank
  | bad
  | good (e : RawEvent)
deriving DecidableEq

/-- The accumulator variables of the read loop in `process_session`.
`tool_usage` models the `Counter` as an association list in first-seen
key order; `files_touched` and `models_used` model Python sets as
duplicate-free lists in insertion order (their order is erased by
`sorted(...)` at summary-build time). -/
structure SessionState where
  timestamps : List PyStr := []
  user_messages : List PyStr := []
  assistant_texts : List PyStr := []
  tool_usage : List (PyStr × Nat) := []
  tool_details : List ToolInfo := []
  files_touched : List PyStr := []
  models_used : List PyStr := []
  total_input_tokens : Nat := 0
  total_output_tokens : Nat := 0
  has_summary : Bool := false
  git_branch : Option PyStr := none
  lines_processed : Nat := 0
  lines_skipped : Nat := 0
deriving DecidableEq

/-- Insertion into a Python set modelled as a duplicate-free list. -/
def setInsert (s : List PyStr) (x : PyStr) : List PyStr :=
  if x ∈ s then s else s ++ [x]

/-- `Counter[k] += 1` on the association-list model of a `Counter`. -/
def counterAdd (c : List (PyStr × Nat)) (k : PyStr) : List (PyStr × Nat) :=
  match c with
  | [] => [(k, 1)]
  | (k2, n) :: rest => if k2 = k then (k2, n + 1) :: rest else (k2, n) :: counterAdd rest k

/-- Lookup in the association-list model of a `Counter` (`get(k, 0)`). -/
def counterLookup (c : List (PyStr × Nat)) (k : PyStr) : Nat :=
  match c with
  | [] => 0
  | (k2, n) :: rest => if k2 = k then n else counterLookup rest k

/-- The body of the `for tool in tools` loop of the assistant branch:
increment the usage counter for the tool name; add a non-empty `target`
containing a path separator to the touched-files set; append the record
to the detail list while it is shorter than MAX_TOOL_DETAILS. -/
def processTool (st : SessionState) (tool : ToolInfo) : SessionState :=
  let st := { st with tool_usage := counterAdd st.tool_usage tool.name }
  let target := tool.target.getD []
  let st :=
    if ¬ target.isEmpty ∧ '/' ∈ target then
      { st with files_touched := setInsert st.files_touched target }
    else st
  if st.tool_details.length < MAX_TOOL_DETAILS then
    { st with tool_details := st.tool_details ++ [tool] }
  else st

/-- The wrapped, 1000-char-capped pseudo-message appended to the
assistant-text stream for a `summary` record. -/
def context_summary_text (s : PyStr) : PyStr :=
  "[CONTEXT SUMMARY: ".data ++ s.take 1000 ++ "]".data

/-- Python `text.strip()` truthiness: the string has a non-whitespace
character. -/
def hasNonWhitespace (s : PyStr) : Bool := s.any fun c => !c.isWhitespace

/-- The `lines_processed += 1` statement of the read loop. -/
def incLinesProcessed (st : SessionState) : SessionState :=
  { st with lines_processed := st.lines_processed + 1 }

/-- The `if timestamp: timestamps.append(timestamp)` statement of the
read loop. -/
def recordTimestamp (st : SessionState) (e : RawEvent) : SessionState :=
  if optTruthy e.timestamp then
    { st with timestamps := st.timestamps ++ [e.timestamp.getD []] }
  else st

/-- The `if not git_branch and obj.get('gitBranch')` statement of the
read loop: latch the first truthy branch label. -/
def recordGitBranch (st : SessionState) (e : RawEvent) : SessionState :=
  if !optTruthy st.git_branch && optTruthy e.gitBranch then
    { st with git_branch := e.gitBranch }
  else st

/-- The `summary` branch of the read loop: mark compression and append
the wrapped, truthy summary text to the assistant-text stream. -/
def processSummaryEvent (st : SessionState) (e : RawEvent) : SessionState :=
  let st := { st with has_summary := true }
  let summary_text := e.summary.getD []
  if summary_text.isEmpty then st
  else
    { st with assistant_texts := st.assistant_texts ++ [context_summary_text summary_text] }

/-- The `user` branch of the read loop: extract the display text and
append it if it has a non-whitespace character. -/
def processUserEvent (st : SessionState) (e : RawEvent) : SessionState :=
  let text := extract_text_from_content e.message.content MAX_TEXT_PER_MESSAGE
  if hasNonWhitespace text then
    { st with user_messages := st.user_messages ++ [text] }
  else st

/-- The `assistant` branch of the read loop: record the model, add the
usage token counts, append non-blank display text, then run the tool
loop over the extracted tool calls. -/
def processAssistantEvent (st : SessionState) (e : RawEvent) : SessionState :=
  let msg := e.message
  let st :=
    if optTruthy msg.model then
      { st with models_used := setInsert st.models_used (msg.model.getD []) }
    else st
  let st :=
    { st with total_input_tokens := st.total_input_tokens + msg.input_tokens,
              total_output_tokens := st.total_output_tokens + msg.output_tokens }
  let text := extract_text_from_content msg.content MAX_TEXT_PER_MESSAGE
  let st :=
    if hasNonWhitespace text then
      { st with assistant_texts := st.assistant_texts ++ [text] }
    else st
  (extract_tool_calls msg.content).foldl processTool st

/-- The body of the read loop of `process_session` for one parsed
record: count it, collect a truthy timestamp, latch the first truthy
`gitBranch`, then dispatch on the record kind (`summary`, `user`,
`assistant`, anything else ignored). -/
def processEvent (st : SessionState) (e : RawEvent) : SessionState :=
  let st := incLinesProcessed st
  let st := recordTimestamp st e
  let st := recordGitBranch st e
  if e.type = some "summary".data then processSummaryEvent st e
  else if e.type = some "user".data then processUserEvent st e
  else if e.type = some "assistant".data then processAssistantEvent st e
  else st

/-- One iteration of the read loop: blank lines are ignored, unparseable
lines increment the skipped counter and processing continues, parsed
records are dispatched to `processEvent`. -/
def processLine (st : SessionState) (l : Line) : SessionState :=
  match l with
  | .blank => st
  | .bad => { st with lines_skipped := st.lines_skipped + 1 }
  | .good e => processEvent st e

/-- A conversation-flow role. -/
inductive Role where
  | user
  | assistant
deriving DecidableEq

/-- One entry of the compressed conversation flow. -/
structure FlowEntry where
  role : Role
  text : PyStr
deriving DecidableEq

/-- The `while user_idx < len(user_messages) and exchange_count <
MAX_CONVERSATION_EXCHANGES` loop: each iteration appends the next user
message, then the next assistant text if one remains. -/
def build_conversation_flow : List PyStr → List PyStr → Nat → List FlowEntry
  | [], _, _ => []
  | _, _, 0 => []
  | u :: us, [], n + 1 =>
      { role := .user, text := u } :: build_conversation_flow us [] n
  | u :: us, b :: bs, n + 1 =>
      { role := .user, text := u } :: { role := .assistant, text := b } ::
        build_conversation_flow us bs n

/-- The `stats` object of a summary. -/
structure Stats where
  user_messages : Nat
  assistant_responses : Nat
  total_input_tokens : Nat
  total_output_tokens : Nat
  had_context_compression : Bool
deriving DecidableEq

/-- The session-content-derived fields of the persisted `SessionSummary`.
The identity fields (`session_id`, `project`) and `subagent_count` are
derived from the file path and sibling directories, not from the log's
lines, and are omitted here.  `tool_usage` is the counter's key-to-count
mapping; `dict(tool_usage.most_common())` only reorders the entries of
that mapping. -/
structure Summary where
  start_time : Option PyStr
  end_time : Option PyStr
  git_branch : Option PyStr
  models_used : List PyStr
  stats : Stats
  tool_usage : List (PyStr × Nat)
  tool_details : List ToolInfo
  files_touched : List PyStr
  conversation_flow : List FlowEntry
deriving DecidableEq

/-- Python `min(timestamps)` guarded by `if timestamps else None`. -/
def listMinOpt (l : List PyStr) : Option PyStr :=
  match l with
  | [] => none
  | x :: xs => some (xs.foldl min x)

/-- Python `max(timestamps)` guarded by `if timestamps else None`. -/
def listMaxOpt (l : List PyStr) : Option PyStr :=
  match l with
  | [] => none
  | x :: xs => some (xs.foldl max x)

/-- Building the summary dict from the loop's final accumulator state:
models are sorted, the touched-file set is sorted and capped to
MAX_FILES_TOUCHED, and the conversation flow is built from the two text
streams with the MAX_CONVERSATION_EXCHANGES cap. -/
def build_summary (st : SessionState) : Summary :=
  { start_time := listMinOpt st.timestamps,
    end_time := listMaxOpt st.timestamps,
    git_branch := st.git_branch,
    models_used := st.models_used.insertionSort (· ≤ ·),
    stats :=
      { user_messages := st.user_messages.length,
        assistant_responses := st.assistant_texts.length,
        total_input_tokens := st.total_input_tokens,
        total_output_tokens := st.total_output_tokens,
        had_context_compression := st.has_summary },
    tool_usage := st.tool_usage,
    tool_details := st.tool_details,
    files_touched := (st.files_touched.insertionSort (· ≤ ·)).take MAX_FILES_TOUCHED,
    conversation_flow :=
      build_conversation_flow st.user_messages st.assistant_texts MAX_CONVERSATION_EXCHANGES }

/-- `process_session`: fold the read loop over the lines of the log and
build the summary, returning it with the skipped-line count. -/
def process_session (lines : List Line) : Summary × Nat :=
  let st := lines.foldl processLine {}
  (build_summary st, st.lines_skipped)

/-- The cached summary file for a session id, as seen by `main`:
absent, present but failing `json.load` (or missing keys), or present
and parsed. -/
inductive CacheFile where
  | absent
  | corrupt
  | valid (s : Summary)
deriving DecidableEq

/-- How `main` obtained one session's summary. -/
inductive SessionResult where
  | cachedHit (s : Summary)
  | recomputed (s : Summary)
deriving DecidableEq

/-- The per-session branch of `main`'s loop: without `--force`, an
existing summary that parses is appended verbatim and the Compactor is
skipped; a parse failure falls through (`except ...: pass`) to
reprocessing, as does an absent file; with `--force` the cache check is
bypassed entirely. -/
def runSessionStep (force : Bool) (cache : CacheFile) (log : List Line) : SessionResult :=
  if !force then
    match cache with
    | .valid s => .cachedHit s
    | _ => .recomputed (process_session log).1
  else .recomputed (process_session log).1

/-- An external per-session `Facet` record, restricted to the fields the
Aggregation Engine reads for the derived rates.  Mapping-valued fields
are association lists; satisfaction values are counts, friction values
are modelled as integers so that the `v > 0` test is meaningful on
arbitrary numeric input. -/
structure Facet where
  outcome : Option PyStr := none
  claude_helpfulness : Option PyStr := none
  friction_counts : Option (List (PyStr × Int)) := none
  user_satisfaction_counts : Option (List (PyStr × Nat)) := none
deriving DecidableEq

/-- `f.get('outcome', 'unclear')`. -/
def outcomeKey (f : Facet) : PyStr := f.outcome.getD "unclear".data

/-- `f.get('claude_helpfulness', 'unknown')`. -/
def helpfulnessKey (f : Facet) : PyStr := f.claude_helpfulness.getD "unknown".data

/-- `Counter(outcomeKey f for f in facets).get(k, 0)`. -/
def outcomesCount (facets : List Facet) (k : PyStr) : Nat :=
  (facets.filter fun f => outcomeKey f = k).length

/-- `Counter(helpfulnessKey f for f in facets).get(k, 0)`. -/
def helpfulnessCount (facets : List Facet) (k : PyStr) : Nat :=
  (facets.filter fun f => helpfulnessKey f = k).length

/-- `goals_achieved = outcomes.get('fully_achieved', 0) +
outcomes.get('mostly_achieved', 0)`. -/
def goals_achieved (facets : List Facet) : Nat :=
  outcomesCount facets "fully_achieved".data + outcomesCount facets "mostly_achieved".data

/-- `goals_achieved_pct = (goals_achieved / total * 100) if total else 0`. -/
def goals_achieved_pct (facets : List Facet) : ℚ :=
  if facets.length ≠ 0 then (goals_achieved facets : ℚ) / facets.length * 100 else 0

/-- `helpful_count = helpfulness.get('essential', 0) +
helpfulness.get('very_helpful', 0)`. -/
def helpful_count (facets : List Facet) : Nat :=
  helpfulnessCount facets "essential".data + helpfulnessCount facets "very_helpful".data

/-- `helpful_pct = (helpful_count / total * 100) if total else 0`. -/
def helpful_pct (facets : List Facet) : ℚ :=
  if facets.length ≠ 0 then (helpful_count facets : ℚ) / facets.length * 100 else 0

/-- `any(v > 0 for v in (f.get('friction_counts') or {}).values())`. -/
def facetHasFriction (f : Facet) : Bool :=
  (f.friction_counts.getD []).any fun p => p.2 > 0

/-- `sessions_with_friction`: the number of facets with at least one
positive friction count. -/
def sessions_with_friction (facets : List Facet) : Nat :=
  (facets.filter fun f => facetHasFriction f).length

/-- `friction_pct = (sessions_with_friction / total * 100) if total else 0`. -/
def friction_pct (facets : List Facet) : ℚ :=
  if facets.length ≠ 0 then (sessions_with_friction facets : ℚ) / facets.length * 100 else 0

/-- The contribution of one facet's mapping-valued field to
`aggregate_dict_field(facets, field)` at key `k`: the sum of its
numeric values stored under `k`. -/
def dictFieldAt (m : List (PyStr × Nat)) (k : PyStr) : Nat :=
  ((m.filter fun p => p.1 = k).map fun p => p.2).sum

/-- `aggregate_dict_field(facets, 'user_satisfaction_counts').get(k, 0)`:
sum the values stored under `k` across all facets. -/
def satisfactionAgg (facets : List Facet) (k : PyStr) : Nat :=
  (facets.map fun f => dictFieldAt (f.user_satisfaction_counts.getD []) k).sum

/-- `sum(satisfaction.values())`: the total satisfaction-signal count,
summing every value of every facet's satisfaction mapping. -/
def satisfactionTotal (facets : List Facet) : Nat :=
  (facets.map fun f => ((f.user_satisfaction_counts.getD []).map fun p => p.2).sum).sum

/-- `deep_dissatisfied = satisfaction.get('dissatisfied', 0) +
satisfaction.get('frustrated', 0)`. -/
def dissatisfiedCount (facets : List Facet) : Nat :=
  satisfactionAgg facets "dissatisfied".data + satisfactionAgg facets "frustrated".data

/-- `deep_dissat_pct = (deep_dissatisfied * 100 // deep_total_sat) if
deep_total_sat else 0`; Python floor division on non-negative counts is
`Nat` division. -/
def dissat_pct (facets : List Facet) : Nat :=
  if satisfactionTotal facets ≠ 0 then
    dissatisfiedCount facets * 100 / satisfactionTotal facets
  else 0

/-- The recommendations of `generate_recommendations`, identified by
their titles. -/
inductive RecTag where
  | manage_session_length
  | add_subagent_limits
  | data_verification_guardrails
  | upfront_constraints
  | research_skill
  | context_loading
  | run_monthly
deriving DecidableEq

/-- `dict.get(k, 0)` on an aggregate modelled as an association list of
numeric values. -/
def dictGet (d : List (PyStr × ℚ)) (k : PyStr) : ℚ :=
  match d with
  | [] => 0
  | (k2, v) :: rest => if k2 = k then v else dictGet rest k

/-- The gated candidate recommendations of `generate_recommendations`,
in source order, before the fixed monthly recommendation is appended.
Python's literal `0.3` is the binary double nearest 3/10; we model the
threshold with the exact rational 3/10 (the two comparisons agree for
every session count below 10^15). -/
def gated_recs (friction_counter : List (PyStr × ℚ)) (total_sessions : Nat)
    (goal_counter : List (PyStr × ℚ)) : List RecTag :=
  (if dictGet friction_counter "context_overflow".data ≥ 3 then
    [RecTag.manage_session_length] else [])
  ++ (if dictGet friction_counter "tool_failure".data ≥ 5 then
    [RecTag.add_subagent_limits] else [])
  ++ (if dictGet friction_counter "fabricated_data".data ≥ 1 then
    [RecTag.data_verification_guardrails] else [])
  ++ (if dictGet friction_counter "wrong_approach".data ≥ 5 then
    [RecTag.upfront_constraints] else [])
  ++ (if dictGet goal_counter "research".data > (total_sessions : ℚ) * (3 / 10) then
    [RecTag.research_skill] else [])
  ++ (if dictGet friction_counter "missed_context".data ≥ 3 then
    [RecTag.context_loading] else [])

/-- `generate_recommendations`: the gated candidates in order, then the
fixed monthly recommendation, capped to 5 (`recs[:5]`).  The
`session_types` argument is accepted and unused, as in the source. -/
def generate_recommendations (friction_counter : List (PyStr × ℚ)) (total_sessions : Nat)
    (goal_counter : List (PyStr × ℚ)) (session_types : List (PyStr × Nat)) : List RecTag :=
  let _ := session_types
  (gated_recs friction_counter total_sessions goal_counter ++ [RecTag.run_monthly]).take 5

/-- The role expected after `r` in a strictly alternating flow. -/
def Role.next : Role → Role
  | .user => .assistant
  | .assistant => .user

/-- Strict role alternation of a flow's role sequence, starting from an
expected first role. -/
def alternatesFrom : Role → List Role → Bool
  | _, [] => true
  | r, r2 :: rest => r2 == r && alternatesFrom r.next rest

/-- The role sequence of a conversation flow. -/
def flowRoles (flow : List FlowEntry) : List Role := flow.map fun e => e.role

/-- The number of entries of a flow with a given role. -/
def countRole (flow : List FlowEntry) (r : Role) : Nat :=
  (flow.filter fun e => e.role == r).length

/-- The tool records extracted from one log line: assistant records
contribute `extract_tool_calls` of their content, every other line
contributes none. -/
def lineToolInfos (l : Line) : List ToolInfo :=
  match l with
  | .good e =>
      if e.type = some "assistant".data then extract_tool_calls e.message.content else []
  | _ => []

/-- All tool invocations of a session log, in order. -/
def session_tool_infos (lines : List Line) : List ToolInfo :=
  lines.flatMap lineToolInfos

/-- The exact number of invocations of a tool name across the whole
session log. -/
def session_tool_count (lines : List Line) (name : PyStr) : Nat :=
  ((session_tool_infos lines).filter fun t => t.name = name).length

/-- The five tool names whose invocations carry a `target` field. -/
def targetToolName (name : PyStr) : Prop :=
  name = "Read".data ∨ name = "Glob".data ∨ name = "Grep".data ∨
    name = "Edit".data ∨ name = "Write".data

instance (name : PyStr) : Decidable (targetToolName name) := by
  unfold targetToolName; infer_instance

/-- A log with two consecutive non-empty user messages and no assistant
text: its conversation flow is two user turns in a row. -/
def c1_demo_log : List Line :=
  [ .good { type := some "user".data, message := { content := .str "first".data } },
    .good { type := some "user".data, message := { content := .str "second".data } } ]

/-- A log realizing the spec's example: 50 non-empty user messages and
45 assistant texts. -/
def c1_example_log : List Line :=
  List.replicate 50
      (Line.good { type := some "user".data, message := { content := .str "u".data } })
    ++ List.replicate 45
      (Line.good { type := some "assistant".data, message := { content := .str "b".data } })

/-- A log with one user message made of two text blocks of 300 and 200
characters: each block survives its 500-char truncation whole, and the
space-join is 501 chars long. -/
def c2_demo_log : List Line :=
  [ .good { type := some "user".data,
            message := { content := .blocks [
                ContentBlock.text (List.replicate 300 'a'),
                ContentBlock.text (List.replicate 200 'b') ] } } ]

/-- An assistant content with a Task invocation whose `subagent_type`
is 201 characters long. -/
def c3_demo_content : Content :=
  .blocks [ .tool_use (some "Task".data) { subagent_type := some (List.replicate 201 'x') } ]

/-- A well-formed two-line log used to witness the malformed-line
insertion property. -/
def c6_demo_pre : List Line :=
  [ .good { type := some "user".data, message := { content := .str "hello".data } } ]

/-- The suffix of the witness log for the malformed-line property. -/
def c6_demo_post : List Line :=
  [ .good { type := some "assistant".data,
            message := { content := .blocks [.text "done".data] } } ]

/-- A log with one Read invocation on a path and one Bash invocation
whose command contains a path separator: only the Read target may enter
the touched-files set. -/
def c10_demo_log : List Line :=
  [ .good { type := some "assistant".data,
            message := { content := .blocks [
                .tool_use (some "Read".data) { file_path := some "src/a".data },
                .tool_use (some "Bash".data) { command := some "rm /tmp/x".data } ] } } ]

end DeepInsights

namespace DeepInsights

/-- A concrete persisted summary used to witness the caching claim. -/
def c9_demo_summary : Summary := (process_session c6_demo_pre).1

/-- A facet with a fully-achieved outcome and no friction, used to
witness the aggregation-percentage claim. -/
def c4_demo_facet : Facet := { outcome := some "fully_achieved".data }

/-- The effect of one tool invocation on the touched-files set: a
non-empty `target` containing a path separator is inserted. -/
def toolFileUpdate (files : List PyStr) (t : ToolInfo) : List PyStr :=
  let target := t.target.getD []
  if ¬ target.isEmpty ∧ '/' ∈ target then setInsert files target else files

/-- Truncation never exceeds the cap. -/
theorem length_take_le (s : PyStr) (n : Nat) : (s.take n).length ≤ n := by
  simp [List.length_take]

/-- C9: without the force flag, an existing summary that parses is
reused verbatim and the Compactor is skipped; with the force flag
recomputation is always triggered; an absent or corrupt cached summary
triggers reprocessing rather than an error. -/
theorem c9_cache_reuse (force : Bool) (cache : CacheFile) (log : List Line) :
    (∀ s, force = false → cache = .valid s → runSessionStep force cache log = .cachedHit s)
    ∧ (force = true →
        runSessionStep force cache log = .recomputed (process_session log).1)
    ∧ (force = false → cache = .corrupt →
        runSessionStep force cache log = .recomputed (process_session log).1)
    ∧ (force = false → cache = .absent →
        runSessionStep force cache log = .recomputed (process_session log).1) := by
  refine ⟨?_, ?_, ?_, ?_⟩
  · intro s hf hc; subst hf; subst hc; simp [runSessionStep]
  · intro hf; subst hf; simp [runSessionStep]
  · intro hf hc; subst hf; subst hc; simp [runSessionStep]
  · intro hf hc; subst hf; subst hc; simp [runSessionStep]

/-- Witness for C9 at a concrete cached summary, a corrupt cache, and a
forced run. -/
theorem c9_cache_reuse_witness :
    runSessionStep false (.valid c9_demo_summary) c6_demo_post = .cachedHit c9_demo_summary
    ∧ runSessionStep true (.valid c9_demo_summary) c6_demo_post
        = .recomputed (process_session c6_demo_post).1
    ∧ runSessionStep false .corrupt c6_demo_post
        = .recomputed (process_session c6_demo_post).1 :=
  ⟨(c9_cache_reuse false (.valid c9_demo_summary) c6_demo_post).1 c9_demo_summary rfl rfl,
   (c9_cache_reuse true (.valid c9_demo_summary) c6_demo_post).2.1 rfl,
   (c9_cache_reuse false .corrupt c6_demo_post).2.2.1 rfl rfl⟩

set_option maxHeartbeats 2000000 in
/-- C3 counterexample: a Task invocation with a 201-character
`subagent_type` stores all 201 characters — the sub-type label is not
capped at MAX_TOOL_RESULT_CHARS. -/
theorem c3_counterexample :
    ((extract_tool_calls c3_demo_content).map fun t => t.subagent_type.map List.length)
      = [some 201]
    ∧ MAX_TOOL_RESULT_CHARS < 201 := by
  decide

set_option maxHeartbeats 2000000 in
/-- C3 as amended: every capped detail field respects its cap —
path/pattern targets, commands, queries and URLs are at most 200
characters, the task-spawn description at most 100, and the
subject-or-status string at most 100 (hence also at most 200); only the
`subagent_type` label is stored without a cap. -/
theorem c3_detail_caps (name : PyStr) (inp : ToolInput) :
    (∀ s, (extract_tool_call name inp).target = some s → s.length ≤ MAX_TOOL_RESULT_CHARS)
    ∧ (∀ s, (extract_tool_call name inp).command = some s → s.length ≤ MAX_TOOL_RESULT_CHARS)
    ∧ (∀ s, (extract_tool_call name inp).query = some s → s.length ≤ MAX_TOOL_RESULT_CHARS)
    ∧ (∀ s, (extract_tool_call name inp).url = some s → s.length ≤ MAX_TOOL_RESULT_CHARS)
    ∧ (∀ s, (extract_tool_call name inp).description = some s → s.length ≤ 100)
    ∧ (∀ s, (extract_tool_call name inp).subject = some s → s.length ≤ 100) := by
  unfold extract_tool_call
  split_ifs <;>
    refine ⟨?_, ?_, ?_, ?_, ?_, ?_⟩ <;>
    intro s hs <;>
    simp only [Option.some.injEq, reduceCtorEq] at hs <;>
    (subst hs; exact length_take_le _ _)

set_option maxHeartbeats 2000000 in
/-- Witness for C3 as amended: a 300-character file path is stored as
its 200-character truncation. -/
theorem c3_detail_caps_witness :
    (extract_tool_call "Read".data { file_path := some (List.replicate 300 'x') }).target
      = some (List.replicate 200 'x')
    ∧ (List.replicate 200 'x' : PyStr).length ≤ MAX_TOOL_RESULT_CHARS :=
  ⟨by decide,
   (c3_detail_caps "Read".data { file_path := some (List.replicate 300 'x') }).1
     (List.replicate 200 'x') (by decide)⟩

set_option maxHeartbeats 4000000 in
/-- C2 counterexample: a user message made of 251 one-character blocks
produces a conversation-flow message of 501 characters — the per-block
500-character truncations are joined with spaces, so a message can
exceed the 500-character cap. -/
theorem c2_counterexample :
    ((process_session c2_demo_log).1.conversation_flow.map fun e => e.text.length) = [501]
    ∧ MAX_TEXT_PER_MESSAGE < 501 := by
  decide

/-- C2 as amended: the caps hold per contribution, not per joined
message — string content is truncated to the cap; every block
contribution to a message is at most 500 characters; a thinking block
contributes a bracketed marker of at most 165 characters whose preview
is the thinking text truncated to 150; a compression-summary
pseudo-message is at most 1019 characters (a 1000-char-capped body in a
19-char wrapper).  A multi-block message is the space-join of its
capped contributions and can exceed 500 characters. -/
theorem c2_extraction_caps :
    (∀ s n, (extract_text_from_content (.str s) n).length ≤ n)
    ∧ (∀ b t, t ∈ block_texts MAX_TEXT_PER_MESSAGE b → t.length ≤ MAX_TEXT_PER_MESSAGE)
    ∧ (∀ n t out, out ∈ block_texts n (.thinking t) → out.length ≤ 165)
    ∧ (∀ t, ¬ t.isEmpty →
        block_texts MAX_TEXT_PER_MESSAGE (.thinking t)
          = ["[thinking: ".data ++ t.take 150 ++ "...]".data]
        ∧ (t.take 150).length ≤ 150)
    ∧ (∀ s, (context_summary_text s).length ≤ 1019) := by
  refine ⟨?_, ?_, ?_, ?_, ?_⟩
  · intro s n; exact length_take_le s n
  · intro b t ht
    cases b with
    | str s =>
        simp only [block_texts, List.mem_singleton] at ht
        subst ht; exact length_take_le _ _
    | text u =>
        simp only [block_texts, List.mem_singleton] at ht
        subst ht; exact length_take_le _ _
    | thinking u =>
        by_cases hu : u.isEmpty
        · simp [block_texts, hu] at ht
        · simp only [block_texts, hu, if_neg, List.mem_singleton, Bool.false_eq_true,
            not_false_eq_true, if_false] at ht
          subst ht
          simp [List.length_append, MAX_TEXT_PER_MESSAGE]
    | tool_use nm inp => simp [block_texts] at ht
    | other => simp [block_texts] at ht
  · intro n t out hout
    by_cases ht : t.isEmpty
    · simp [block_texts, ht] at hout
    · simp only [block_texts, ht, List.mem_singleton, Bool.false_eq_true,
        not_false_eq_true, if_false] at hout
      subst hout
      simp [List.length_append]
  · intro t ht
    refine ⟨by simp [block_texts, ht], length_take_le t 150⟩
  · intro s
    simp [context_summary_text, List.length_append]

set_option maxHeartbeats 2000000 in
/-- Witness for C2 as amended at a concrete oversized text block and a
concrete oversized summary body. -/
theorem c2_extraction_caps_witness :
    (List.replicate 600 'a' : PyStr).take MAX_TEXT_PER_MESSAGE
        ∈ block_texts MAX_TEXT_PER_MESSAGE (ContentBlock.text (List.replicate 600 'a'))
    ∧ ((List.replicate 600 'a' : PyStr).take MAX_TEXT_PER_MESSAGE).length
        ≤ MAX_TEXT_PER_MESSAGE
    ∧ (context_summary_text (List.replicate 2000 'b')).length ≤ 1019 :=
  ⟨by decide,
   c2_extraction_caps.2.1 (ContentBlock.text (List.replicate 600 'a')) _ (by decide),
   c2_extraction_caps.2.2.2.2 (List.replicate 2000 'b')⟩

/-- Membership in a conditional singleton of the gated candidate list. -/
theorem mem_ite_singleton {c : Prop} [Decidable c] {r x : RecTag} :
    (r ∈ if c then ([x] : List RecTag) else []) ↔ c ∧ r = x := by
  split_ifs with h <;> simp [h]

/-- A conditional singleton is a sublist of its singleton. -/
theorem ite_singleton_sublist {c : Prop} [Decidable c] (x : RecTag) :
    (if c then ([x] : List RecTag) else []).Sublist [x] := by
  split_ifs <;> simp

/-- Characterization of membership in the gated candidate list: each
recommendation is present exactly when its threshold condition holds. -/
theorem mem_gated_recs (fc : List (PyStr × ℚ)) (t : Nat) (gc : List (PyStr × ℚ))
    (r : RecTag) :
    r ∈ gated_recs fc t gc ↔
      (dictGet fc "context_overflow".data ≥ 3 ∧ r = .manage_session_length)
      ∨ (dictGet fc "tool_failure".data ≥ 5 ∧ r = .add_subagent_limits)
      ∨ (dictGet fc "fabricated_data".data ≥ 1 ∧ r = .data_verification_guardrails)
      ∨ (dictGet fc "wrong_approach".data ≥ 5 ∧ r = .upfront_constraints)
      ∨ (dictGet gc "research".data > (t : ℚ) * (3 / 10) ∧ r = .research_skill)
      ∨ (dictGet fc "missed_context".data ≥ 3 ∧ r = .context_loading) := by
  simp only [gated_recs, List.mem_append, mem_ite_singleton]
  tauto

/-- The gated candidate list is a sublist of the fixed gating order. -/
theorem gated_recs_sublist (fc : List (PyStr × ℚ)) (t : Nat) (gc : List (PyStr × ℚ)) :
    (gated_recs fc t gc).Sublist
      [RecTag.manage_session_length, RecTag.add_subagent_limits,
       RecTag.data_verification_guardrails, RecTag.upfront_constraints,
       RecTag.research_skill, RecTag.context_loading] := by
  unfold gated_recs
  exact (((((ite_singleton_sublist _).append (ite_singleton_sublist _)).append
    (ite_singleton_sublist _)).append (ite_singleton_sublist _)).append
    (ite_singleton_sublist _)).append (ite_singleton_sublist _)

/-- C5: the recommendation list has length at most 5; it preserves the
fixed gating order (it is a sublist of the gate order followed by the
monthly recommendation, never re-sorted); each gated recommendation
appears only when its threshold holds; and whenever the gated
candidates leave the 5th slot free (at most 4 fire), the fixed monthly
recommendation is present and last. -/
theorem c5_recommendation_gating (fc : List (PyStr × ℚ)) (t : Nat)
    (gc : List (PyStr × ℚ)) (stypes : List (PyStr × Nat)) :
    (generate_recommendations fc t gc stypes).length ≤ 5
    ∧ (generate_recommendations fc t gc stypes).Sublist
        [RecTag.manage_session_length, RecTag.add_subagent_limits,
         RecTag.data_verification_guardrails, RecTag.upfront_constraints,
         RecTag.research_skill, RecTag.context_loading, RecTag.run_monthly]
    ∧ (RecTag.manage_session_length ∈ generate_recommendations fc t gc stypes →
        dictGet fc "context_overflow".data ≥ 3)
    ∧ (RecTag.add_subagent_limits ∈ generate_recommendations fc t gc stypes →
        dictGet fc "tool_failure".data ≥ 5)
    ∧ (RecTag.data_verification_guardrails ∈ generate_recommendations fc t gc stypes →
        dictGet fc "fabricated_data".data ≥ 1)
    ∧ (RecTag.upfront_constraints ∈ generate_recommendations fc t gc stypes →
        dictGet fc "wrong_approach".data ≥ 5)
    ∧ (RecTag.research_skill ∈ generate_recommendations fc t gc stypes →
        dictGet gc "research".data > (t : ℚ) * (3 / 10))
    ∧ (RecTag.context_loading ∈ generate_recommendations fc t gc stypes →
        dictGet fc "missed_context".data ≥ 3)
    ∧ ((gated_recs fc t gc).length ≤ 4 →
        (generate_recommendations fc t gc stypes).getLast? = some RecTag.run_monthly
        ∧ RecTag.run_monthly ∈ generate_recommendations fc t gc stypes) := by
  have hmem : ∀ r : RecTag, r ∈ generate_recommendations fc t gc stypes →
      r = RecTag.run_monthly ∨ r ∈ gated_recs fc t gc := by
    intro r hr
    have hr2 := List.take_subset _ _ hr
    rcases List.mem_append.1 hr2 with h | h
    · exact Or.inr h
    · simp at h; exact Or.inl h
  refine ⟨?_, ?_, ?_, ?_, ?_, ?_, ?_, ?_, ?_⟩
  · exact List.length_take_le _ _
  · refine (List.take_sublist _ _).trans ?_
    exact (gated_recs_sublist fc t gc).append (List.Sublist.refl _)
  · intro h
    rcases hmem _ h with h2 | h2
    · exact absurd h2 (by simp)
    · simpa [mem_gated_recs] using h2
  · intro h
    rcases hmem _ h with h2 | h2
    · exact absurd h2 (by simp)
    · simpa [mem_gated_recs] using h2
  · intro h
    rcases hmem _ h with h2 | h2
    · exact absurd h2 (by simp)
    · simpa [mem_gated_recs] using h2
  · intro h
    rcases hmem _ h with h2 | h2
    · exact absurd h2 (by simp)
    · simpa [mem_gated_recs] using h2
  · intro h
    rcases hmem _ h with h2 | h2
    · exact absurd h2 (by simp)
    · simpa [mem_gated_recs] using h2
  · intro h
    rcases hmem _ h with h2 | h2
    · exact absurd h2 (by simp)
    · simpa [mem_gated_recs] using h2
  · intro hlen
    have hfull : generate_recommendations fc t gc stypes
        = gated_recs fc t gc ++ [RecTag.run_monthly] := by
      unfold generate_recommendations
      exact List.take_of_length_le (by simp; omega)
    rw [hfull]
    constructor
    · exact List.getLast?_concat _
    · simp

/-- Witness for C5 at a concrete aggregate where only the
context-overflow gate fires. -/
theorem c5_recommendation_gating_witness :
    dictGet [("context_overflow".data, (3 : ℚ))] "context_overflow".data ≥ 3
    ∧ (generate_recommendations [("context_overflow".data, (3 : ℚ))] 0 [] []).getLast?
        = some RecTag.run_monthly := by
  have hG : gated_recs [("context_overflow".data, (3 : ℚ))] 0 []
      = [RecTag.manage_session_length] := by
    unfold gated_recs
    norm_num [show dictGet [("context_overflow".data, (3 : ℚ))] "context_overflow".data
        = 3 from rfl,
      show dictGet [("context_overflow".data, (3 : ℚ))] "tool_failure".data = 0 from rfl,
      show dictGet [("context_overflow".data, (3 : ℚ))] "fabricated_data".data = 0 from rfl,
      show dictGet [("context_overflow".data, (3 : ℚ))] "wrong_approach".data = 0 from rfl,
      show dictGet [("context_overflow".data, (3 : ℚ))] "missed_context".data = 0 from rfl,
      show dictGet ([] : List (PyStr × ℚ)) "research".data = 0 from rfl]
  have hmem : RecTag.manage_session_length
      ∈ generate_recommendations [("context_overflow".data, (3 : ℚ))] 0 [] [] := by
    unfold generate_recommendations
    rw [hG]
    simp
  have hlen : (gated_recs [("context_overflow".data, (3 : ℚ))] 0 []).length ≤ 4 := by
    rw [hG]; simp
  obtain ⟨-, -, hgate, -, -, -, -, -, hlast⟩ :=
    c5_recommendation_gating [("context_overflow".data, (3 : ℚ))] 0 [] []
  exact ⟨hgate hmem, (hlast hlen).1⟩

/-- Adding up the counts of two distinct keys counts the facets whose
key is either one. -/
theorem countKey_pair_eq (key : Facet → PyStr) (A B : PyStr) (hAB : A ≠ B)
    (facets : List Facet) :
    (facets.filter fun f => key f = A).length + (facets.filter fun f => key f = B).length
      = (facets.filter fun f => key f = A ∨ key f = B).length := by
  induction facets with
  | nil => rfl
  | cons f fs ih =>
      simp only [List.filter_cons, Bool.decide_or] at ih ⊢
      by_cases h1 : key f = A
      · have h2 : ¬ key f = B := fun hB => hAB (h1.symm.trans hB)
        simp [h1, h2, hAB, Ne.symm hAB]
        omega
      · by_cases h2 : key f = B
        · simp [h1, h2, hAB, Ne.symm hAB]
          omega
        · simp [h1, h2]
          omega

/-- A numerator below its denominator yields a percentage in [0, 100];
this covers the zero-denominator case, where rational division yields
zero. -/
theorem pct_bounds (num total : Nat) (h : num ≤ total) :
    0 ≤ (num : ℚ) / total * 100 ∧ (num : ℚ) / total * 100 ≤ 100 := by
  constructor
  · positivity
  · rcases Nat.eq_zero_or_pos total with h0 | h0
    · subst h0
      simp
    · have ht : (0 : ℚ) < total := by exact_mod_cast h0
      rw [div_mul_eq_mul_div, div_le_iff₀ ht]
      have hq : (num : ℚ) ≤ total := by exact_mod_cast h
      nlinarith

/-- The goals-achieved numerator counts exactly the facets whose outcome
is fully or mostly achieved. -/
theorem goals_achieved_eq (facets : List Facet) :
    goals_achieved facets
      = (facets.filter fun f =>
          outcomeKey f = "fully_achieved".data ∨ outcomeKey f = "mostly_achieved".data).length :=
  countKey_pair_eq outcomeKey "fully_achieved".data "mostly_achieved".data (by decide) facets

/-- The helpful numerator counts exactly the facets whose helpfulness is
essential or very helpful. -/
theorem helpful_count_eq (facets : List Facet) :
    helpful_count facets
      = (facets.filter fun f =>
          helpfulnessKey f = "essential".data ∨ helpfulnessKey f = "very_helpful".data).length :=
  countKey_pair_eq helpfulnessKey "essential".data "very_helpful".data (by decide) facets

/-- The values stored under two distinct keys never exceed the sum of
all values of the mapping. -/
theorem dictFieldAt_pair_le (m : List (PyStr × Nat)) (A B : PyStr) (hAB : A ≠ B) :
    dictFieldAt m A + dictFieldAt m B ≤ (m.map fun p => p.2).sum := by
  induction m with
  | nil => simp [dictFieldAt]
  | cons p ps ih =>
      simp only [dictFieldAt, List.filter_cons, List.map_cons, List.sum_cons] at ih ⊢
      by_cases h1 : p.1 = A
      · have h2 : ¬ p.1 = B := fun hB => hAB (h1.symm.trans hB)
        simp [h1, h2, hAB, Ne.symm hAB]
        omega
      · by_cases h2 : p.1 = B
        · simp [h1, h2, hAB, Ne.symm hAB]
          omega
        · simp [h1, h2]
          omega

/-- The dissatisfied-plus-frustrated aggregate never exceeds the total
satisfaction-signal count. -/
theorem dissatisfied_le_total (facets : List Facet) :
    dissatisfiedCount facets ≤ satisfactionTotal facets := by
  unfold dissatisfiedCount satisfactionAgg satisfactionTotal
  induction facets with
  | nil => simp
  | cons f fs ih =>
      have h := dictFieldAt_pair_le (f.user_satisfaction_counts.getD [])
        "dissatisfied".data "frustrated".data (by decide)
      simp only [List.map_cons, List.sum_cons] at ih h ⊢
      omega

/-- C4: every derived percentage of the Aggregation Engine lies in
[0, 100] and is 0 when its denominator is 0, and the derived rates equal
their stated definitions: goals-achieved% counts facets with fully or
mostly achieved outcome over the total, helpful% counts essential or
very-helpful facets over the total, friction-rate% counts facets with at
least one positive friction count over the total, each times 100; the
dissatisfaction rate is similarly bounded and guarded. -/
theorem c4_percentage_bounds (facets : List Facet) :
    (0 ≤ goals_achieved_pct facets ∧ goals_achieved_pct facets ≤ 100)
    ∧ (0 ≤ helpful_pct facets ∧ helpful_pct facets ≤ 100)
    ∧ (0 ≤ friction_pct facets ∧ friction_pct facets ≤ 100)
    ∧ dissat_pct facets ≤ 100
    ∧ (facets = [] →
        goals_achieved_pct facets = 0 ∧ helpful_pct facets = 0 ∧ friction_pct facets = 0)
    ∧ (satisfactionTotal facets = 0 → dissat_pct facets = 0)
    ∧ (facets ≠ [] →
        goals_achieved_pct facets
          = ((facets.filter fun f => outcomeKey f = "fully_achieved".data
              ∨ outcomeKey f = "mostly_achieved".data).length : ℚ) / facets.length * 100
        ∧ helpful_pct facets
          = ((facets.filter fun f => helpfulnessKey f = "essential".data
              ∨ helpfulnessKey f = "very_helpful".data).length : ℚ) / facets.length * 100
        ∧ friction_pct facets
          = ((facets.filter fun f => facetHasFriction f).length : ℚ) / facets.length * 100) := by
  have hg : goals_achieved facets ≤ facets.length := by
    rw [goals_achieved_eq]
    exact List.length_filter_le _ _
  have hh : helpful_count facets ≤ facets.length := by
    rw [helpful_count_eq]
    exact List.length_filter_le _ _
  have hf : sessions_with_friction facets ≤ facets.length :=
    List.length_filter_le _ _
  refine ⟨?_, ?_, ?_, ?_, ?_, ?_, ?_⟩
  · unfold goals_achieved_pct
    split_ifs with h
    · exact pct_bounds _ _ hg
    · norm_num
  · unfold helpful_pct
    split_ifs with h
    · exact pct_bounds _ _ hh
    · norm_num
  · unfold friction_pct
    split_ifs with h
    · exact pct_bounds _ _ hf
    · norm_num
  · unfold dissat_pct
    split_ifs with h
    · exact Nat.div_le_of_le_mul
        (by have := dissatisfied_le_total facets; omega)
    · omega
  · intro h
    subst h
    refine ⟨rfl, rfl, rfl⟩
  · intro h
    unfold dissat_pct
    simp [h]
  · intro h
    have hlen : facets.length ≠ 0 := by simpa [List.length_eq_zero] using h
    refine ⟨?_, ?_, ?_⟩
    · unfold goals_achieved_pct
      rw [goals_achieved_eq]
      simp [hlen]
    · unfold helpful_pct
      rw [helpful_count_eq]
      simp [hlen]
    · unfold friction_pct sessions_with_friction
      simp [hlen]

/-- Witness for C4 at the empty facet collection and at a concrete
singleton collection. -/
theorem c4_percentage_bounds_witness :
    (goals_achieved_pct [] = 0 ∧ helpful_pct [] = 0 ∧ friction_pct [] = 0)
    ∧ dissat_pct [] = 0
    ∧ friction_pct [c4_demo_facet]
        = (((([c4_demo_facet] : List Facet).filter fun f => facetHasFriction f).length : ℚ)
            / ([c4_demo_facet] : List Facet).length * 100) :=
  ⟨(c4_percentage_bounds []).2.2.2.2.1 rfl,
   (c4_percentage_bounds []).2.2.2.2.2.1 rfl,
   ((c4_percentage_bounds [c4_demo_facet]).2.2.2.2.2.2 (by simp)).2.2⟩

/-- The tool loop never reads or writes the skipped-line counter. -/
theorem processTool_skip (st : SessionState) (k : Nat) (t : ToolInfo) :
    processTool { st with lines_skipped := k } t
      = { processTool st t with lines_skipped := k } := by
  unfold processTool
  dsimp only
  split_ifs <;> rfl

/-- Folding the tool loop never reads or writes the skipped-line
counter. -/
theorem foldl_processTool_skip (ts : List ToolInfo) (st : SessionState) (k : Nat) :
    ts.foldl processTool { st with lines_skipped := k }
      = { ts.foldl processTool st with lines_skipped := k } := by
  induction ts generalizing st with
  | nil => rfl
  | cons t ts ih =>
      simp only [List.foldl_cons, processTool_skip, ih]

/-- Counting a processed line never reads or writes the skipped-line
counter. -/
theorem incLinesProcessed_skip (st : SessionState) (k : Nat) :
    incLinesProcessed { st with lines_skipped := k }
      = { incLinesProcessed st with lines_skipped := k } := rfl

/-- Collecting a timestamp never reads or writes the skipped-line
counter. -/
theorem recordTimestamp_skip (st : SessionState) (k : Nat) (e : RawEvent) :
    recordTimestamp { st with lines_skipped := k } e
      = { recordTimestamp st e with lines_skipped := k } := by
  unfold recordTimestamp
  dsimp only
  split_ifs <;> rfl

/-- Latching the branch label never reads or writes the skipped-line
counter. -/
theorem recordGitBranch_skip (st : SessionState) (k : Nat) (e : RawEvent) :
    recordGitBranch { st with lines_skipped := k } e
      = { recordGitBranch st e with lines_skipped := k } := by
  unfold recordGitBranch
  dsimp only
  split_ifs <;> rfl

/-- The summary branch never reads or writes the skipped-line counter. -/
theorem processSummaryEvent_skip (st : SessionState) (k : Nat) (e : RawEvent) :
    processSummaryEvent { st with lines_skipped := k } e
      = { processSummaryEvent st e with lines_skipped := k } := by
  unfold processSummaryEvent
  dsimp only
  split_ifs <;> rfl

/-- The user branch never reads or writes the skipped-line counter. -/
theorem processUserEvent_skip (st : SessionState) (k : Nat) (e : RawEvent) :
    processUserEvent { st with lines_skipped := k } e
      = { processUserEvent st e with lines_skipped := k } := by
  unfold processUserEvent
  dsimp only
  split_ifs <;> rfl

/-- The assistant branch never reads or writes the skipped-line
counter. -/
theorem processAssistantEvent_skip (st : SessionState) (k : Nat) (e : RawEvent) :
    processAssistantEvent { st with lines_skipped := k } e
      = { processAssistantEvent st e with lines_skipped := k } := by
  unfold processAssistantEvent
  dsimp only
  split_ifs <;> rw [← foldl_processTool_skip]

/-- Processing a parsed record never reads or writes the skipped-line
counter. -/
theorem processEvent_skip (st : SessionState) (k : Nat) (e : RawEvent) :
    processEvent { st with lines_skipped := k } e
      = { processEvent st e with lines_skipped := k } := by
  unfold processEvent
  dsimp only
  rw [incLinesProcessed_skip]
  dsimp only
  rw [recordTimestamp_skip]
  dsimp only
  rw [recordGitBranch_skip]
  dsimp only
  split_ifs
  · exact processSummaryEvent_skip _ k e
  · exact processUserEvent_skip _ k e
  · exact processAssistantEvent_skip _ k e
  · rfl

/-- Processing any line other than an unparseable one commutes with
setting the skipped-line counter. -/
theorem processLine_skip (st : SessionState) (k : Nat) (l : Line) (hl : l ≠ Line.bad) :
    processLine { st with lines_skipped := k } l
      = { processLine st l with lines_skipped := k } := by
  cases l with
  | blank => rfl
  | bad => exact absurd rfl hl
  | good e => exact processEvent_skip st k e

/-- Folding the read loop over well-formed lines commutes with setting
the skipped-line counter. -/
theorem foldl_processLine_skip (ls : List Line) (h : ∀ l ∈ ls, l ≠ Line.bad)
    (st : SessionState) (k : Nat) :
    ls.foldl processLine { st with lines_skipped := k }
      = { ls.foldl processLine st with lines_skipped := k } := by
  induction ls generalizing st with
  | nil => rfl
  | cons l ls ih =>
      simp only [List.foldl_cons]
      rw [processLine_skip st k l (h l (by simp))]
      exact ih (fun x hx => h x (by simp [hx])) _

/-- Processing a parsed record leaves the skipped-line counter
unchanged. -/
theorem processEvent_skipped (st : SessionState) (e : RawEvent) :
    (processEvent st e).lines_skipped = st.lines_skipped := by
  have h2 := congrArg SessionState.lines_skipped (processEvent_skip st st.lines_skipped e)
  exact h2

/-- Folding the read loop over well-formed lines leaves the
skipped-line counter unchanged. -/
theorem foldl_processLine_skipped (ls : List Line) (h : ∀ l ∈ ls, l ≠ Line.bad)
    (st : SessionState) :
    (ls.foldl processLine st).lines_skipped = st.lines_skipped := by
  induction ls generalizing st with
  | nil => rfl
  | cons l ls ih =>
      simp only [List.foldl_cons]
      rw [ih (fun x hx => h x (by simp [hx]))]
      cases l with
      | blank => rfl
      | bad => exact absurd rfl (h Line.bad (by simp))
      | good e => exact processEvent_skipped st e

/-- C6: inserting a single unparseable line anywhere into a well-formed
session log yields the same summary together with a skipped-line count
of exactly 1; the parse failure never aborts processing of the rest of
the log. -/
theorem c6_bad_line_insertion (pre post : List Line)
    (hpre : ∀ l ∈ pre, l ≠ Line.bad) (hpost : ∀ l ∈ post, l ≠ Line.bad) :
    process_session (pre ++ Line.bad :: post)
      = ((process_session (pre ++ post)).1, 1) := by
  unfold process_session
  rw [List.foldl_append, List.foldl_cons, List.foldl_append]
  have h1 : processLine (pre.foldl processLine {}) Line.bad
      = { pre.foldl processLine {} with
          lines_skipped := (pre.foldl processLine {}).lines_skipped + 1 } := rfl
  rw [h1, foldl_processLine_skip post hpost]
  have h2 : (pre.foldl processLine {}).lines_skipped = 0 :=
    foldl_processLine_skipped pre hpre {}
  simp only [Prod.mk.injEq]
  constructor
  · rfl
  · dsimp only
    omega

/-- Witness for C6 at a concrete two-line well-formed log. -/
theorem c6_bad_line_insertion_witness :
    process_session (c6_demo_pre ++ Line.bad :: c6_demo_post)
      = ((process_session (c6_demo_pre ++ c6_demo_post)).1, 1) :=
  c6_bad_line_insertion c6_demo_pre c6_demo_post (by decide) (by decide)

/-- Looking up a key after a counter increment: the incremented key
gains one, every other key is unchanged. -/
theorem counterLookup_counterAdd (c : List (PyStr × Nat)) (k k2 : PyStr) :
    counterLookup (counterAdd c k) k2
      = counterLookup c k2 + (if k = k2 then 1 else 0) := by
  induction c with
  | nil =>
      by_cases h : k = k2
      · subst h; simp [counterAdd, counterLookup]
      · simp [counterAdd, counterLookup, h]
  | cons p ps ih =>
      obtain ⟨k3, n⟩ := p
      by_cases h3 : k3 = k
      · subst h3
        by_cases h : k3 = k2
        · subst h; simp [counterAdd, counterLookup]
        · simp [counterAdd, counterLookup, h]
      · simp only [counterAdd, if_neg h3]
        by_cases h : k3 = k2
        · subst h; simp [counterLookup, Ne.symm h3]
        · simp [counterLookup, h, ih]

/-- The tool loop increments exactly the invoked tool's counter. -/
theorem processTool_tool_usage (st : SessionState) (t : ToolInfo) :
    (processTool st t).tool_usage = counterAdd st.tool_usage t.name := by
  unfold processTool
  dsimp only
  split_ifs <;> rfl

/-- Folding the tool loop adds, for every tool name, exactly the number
of invocations of that name. -/
theorem foldl_processTool_tool_usage (ts : List ToolInfo) (st : SessionState) (k : PyStr) :
    counterLookup (ts.foldl processTool st).tool_usage k
      = counterLookup st.tool_usage k + (ts.filter fun t => t.name = k).length := by
  induction ts generalizing st with
  | nil => simp
  | cons t ts ih =>
      simp only [List.foldl_cons, List.filter_cons]
      rw [ih, processTool_tool_usage, counterLookup_counterAdd]
      by_cases h : t.name = k <;> simp [h] <;> omega

/-- Counting a processed line leaves the usage counter unchanged. -/
theorem incLinesProcessed_tool_usage (st : SessionState) :
    (incLinesProcessed st).tool_usage = st.tool_usage := rfl

/-- Collecting a timestamp leaves the usage counter unchanged. -/
theorem recordTimestamp_tool_usage (st : SessionState) (e : RawEvent) :
    (recordTimestamp st e).tool_usage = st.tool_usage := by
  unfold recordTimestamp
  split_ifs <;> rfl

/-- Latching the branch label leaves the usage counter unchanged. -/
theorem recordGitBranch_tool_usage (st : SessionState) (e : RawEvent) :
    (recordGitBranch st e).tool_usage = st.tool_usage := by
  unfold recordGitBranch
  split_ifs <;> rfl

/-- The summary branch leaves the usage counter unchanged. -/
theorem processSummaryEvent_tool_usage (st : SessionState) (e : RawEvent) :
    (processSummaryEvent st e).tool_usage = st.tool_usage := by
  unfold processSummaryEvent
  dsimp only
  split_ifs <;> rfl

/-- The user branch leaves the usage counter unchanged. -/
theorem processUserEvent_tool_usage (st : SessionState) (e : RawEvent) :
    (processUserEvent st e).tool_usage = st.tool_usage := by
  unfold processUserEvent
  dsimp only
  split_ifs <;> rfl

/-- The assistant branch adds exactly the invocation counts of the
event's extracted tool calls. -/
theorem processAssistantEvent_tool_usage (st : SessionState) (e : RawEvent) (k : PyStr) :
    counterLookup (processAssistantEvent st e).tool_usage k
      = counterLookup st.tool_usage k
        + ((extract_tool_calls e.message.content).filter fun t => t.name = k).length := by
  unfold processAssistantEvent
  dsimp only
  split_ifs <;> rw [foldl_processTool_tool_usage]

/-- Processing one parsed record adds exactly the invocation counts of
the record's tool calls. -/
theorem processEvent_tool_usage (st : SessionState) (e : RawEvent) (k : PyStr) :
    counterLookup (processEvent st e).tool_usage k
      = counterLookup st.tool_usage k
        + ((lineToolInfos (.good e)).filter fun t => t.name = k).length := by
  unfold processEvent lineToolInfos
  dsimp only
  by_cases h1 : e.type = some "summary".data
  · have hna : ¬ e.type = some "assistant".data := by rw [h1]; decide
    rw [if_pos h1, if_neg hna, processSummaryEvent_tool_usage, recordGitBranch_tool_usage,
      recordTimestamp_tool_usage, incLinesProcessed_tool_usage]
    simp
  · by_cases h2 : e.type = some "user".data
    · have hna : ¬ e.type = some "assistant".data := by rw [h2]; decide
      rw [if_neg h1, if_pos h2, if_neg hna, processUserEvent_tool_usage,
        recordGitBranch_tool_usage, recordTimestamp_tool_usage, incLinesProcessed_tool_usage]
      simp
    · by_cases h3 : e.type = some "assistant".data
      · rw [if_neg h1, if_neg h2, if_pos h3, if_pos h3, processAssistantEvent_tool_usage,
          recordGitBranch_tool_usage, recordTimestamp_tool_usage, incLinesProcessed_tool_usage]
      · rw [if_neg h1, if_neg h2, if_neg h3, if_neg h3, recordGitBranch_tool_usage,
          recordTimestamp_tool_usage, incLinesProcessed_tool_usage]
        simp

/-- Processing any line adds exactly the invocation counts of the
line's tool calls. -/
theorem processLine_tool_usage (st : SessionState) (l : Line) (k : PyStr) :
    counterLookup (processLine st l).tool_usage k
      = counterLookup st.tool_usage k
        + ((lineToolInfos l).filter fun t => t.name = k).length := by
  cases l with
  | blank => simp [processLine, lineToolInfos]
  | bad => simp [processLine, lineToolInfos]
  | good e => exact processEvent_tool_usage st e k

/-- Folding the read loop adds exactly the invocation counts of the
whole log's tool calls. -/
theorem foldl_processLine_tool_usage (lines : List Line) (st : SessionState) (k : PyStr) :
    counterLookup (lines.foldl processLine st).tool_usage k
      = counterLookup st.tool_usage k
        + ((session_tool_infos lines).filter fun t => t.name = k).length := by
  induction lines generalizing st with
  | nil => simp [session_tool_infos]
  | cons l ls ih =>
      simp only [List.foldl_cons, session_tool_infos, List.flatMap_cons, List.filter_append,
        List.length_append] at ih ⊢
      rw [ih, processLine_tool_usage]
      omega

/-- C7: the tool-usage frequency table of a session summary maps every
tool name to the exact number of its invocations across the whole
session log, regardless of the capped detail list. -/
theorem c7_tool_usage_exact (lines : List Line) (name : PyStr) :
    counterLookup (process_session lines).1.tool_usage name
      = session_tool_count lines name := by
  have h := foldl_processLine_tool_usage lines {} name
  simpa [process_session, build_summary, session_tool_count, counterLookup] using h

/-- The tool loop updates the touched-files set exactly by
`toolFileUpdate`. -/
theorem processTool_files (st : SessionState) (t : ToolInfo) :
    (processTool st t).files_touched = toolFileUpdate st.files_touched t := by
  unfold processTool toolFileUpdate
  dsimp only
  split_ifs <;> rfl

/-- Folding the tool loop folds `toolFileUpdate` over the touched-files
set. -/
theorem foldl_processTool_files (ts : List ToolInfo) (st : SessionState) :
    (ts.foldl processTool st).files_touched = ts.foldl toolFileUpdate st.files_touched := by
  induction ts generalizing st with
  | nil => rfl
  | cons t ts ih =>
      simp only [List.foldl_cons]
      rw [ih]
      rw [processTool_files]

/-- Collecting a timestamp leaves the touched-files set unchanged. -/
theorem recordTimestamp_files (st : SessionState) (e : RawEvent) :
    (recordTimestamp st e).files_touched = st.files_touched := by
  unfold recordTimestamp
  split_ifs <;> rfl

/-- Latching the branch label leaves the touched-files set unchanged. -/
theorem recordGitBranch_files (st : SessionState) (e : RawEvent) :
    (recordGitBranch st e).files_touched = st.files_touched := by
  unfold recordGitBranch
  split_ifs <;> rfl

/-- The summary branch leaves the touched-files set unchanged. -/
theorem processSummaryEvent_files (st : SessionState) (e : RawEvent) :
    (processSummaryEvent st e).files_touched = st.files_touched := by
  unfold processSummaryEvent
  dsimp only
  split_ifs <;> rfl

/-- The user branch leaves the touched-files set unchanged. -/
theorem processUserEvent_files (st : SessionState) (e : RawEvent) :
    (processUserEvent st e).files_touched = st.files_touched := by
  unfold processUserEvent
  dsimp only
  split_ifs <;> rfl

/-- The assistant branch folds `toolFileUpdate` over the extracted tool
calls. -/
theorem processAssistantEvent_files (st : SessionState) (e : RawEvent) :
    (processAssistantEvent st e).files_touched
      = (extract_tool_calls e.message.content).foldl toolFileUpdate st.files_touched := by
  unfold processAssistantEvent
  dsimp only
  split_ifs <;> rw [foldl_processTool_files]

/-- Processing one parsed record folds `toolFileUpdate` over the
record's tool calls. -/
theorem processEvent_files (st : SessionState) (e : RawEvent) :
    (processEvent st e).files_touched
      = (lineToolInfos (.good e)).foldl toolFileUpdate st.files_touched := by
  unfold processEvent lineToolInfos
  dsimp only
  by_cases h1 : e.type = some "summary".data
  · have hna : ¬ e.type = some "assistant".data := by rw [h1]; decide
    rw [if_pos h1, if_neg hna, processSummaryEvent_files, recordGitBranch_files,
      recordTimestamp_files]
    rfl
  · by_cases h2 : e.type = some "user".data
    · have hna : ¬ e.type = some "assistant".data := by rw [h2]; decide
      rw [if_neg h1, if_pos h2, if_neg hna, processUserEvent_files, recordGitBranch_files,
        recordTimestamp_files]
      rfl
    · by_cases h3 : e.type = some "assistant".data
      · rw [if_neg h1, if_neg h2, if_pos h3, if_pos h3, processAssistantEvent_files,
          recordGitBranch_files, recordTimestamp_files]
        rfl
      · rw [if_neg h1, if_neg h2, if_neg h3, if_neg h3, recordGitBranch_files,
          recordTimestamp_files]
        rfl

/-- Processing any line folds `toolFileUpdate` over the line's tool
calls. -/
theorem processLine_files (st : SessionState) (l : Line) :
    (processLine st l).files_touched
      = (lineToolInfos l).foldl toolFileUpdate st.files_touched := by
  cases l with
  | blank => rfl
  | bad => rfl
  | good e => exact processEvent_files st e

/-- Folding the read loop folds `toolFileUpdate` over every tool call of
the log. -/
theorem foldl_processLine_files (lines : List Line) (st : SessionState) :
    (lines.foldl processLine st).files_touched
      = (session_tool_infos lines).foldl toolFileUpdate st.files_touched := by
  induction lines generalizing st with
  | nil => rfl
  | cons l ls ih =>
      simp only [List.foldl_cons, session_tool_infos, List.flatMap_cons, List.foldl_append]
      rw [ih]
      rw [processLine_files]
      rfl

/-- Inserting into the set model preserves freedom from duplicates. -/
theorem setInsert_nodup (s : List PyStr) (x : PyStr) (h : s.Nodup) :
    (setInsert s x).Nodup := by
  unfold setInsert
  split_ifs with hm
  · exact h
  · simp [List.nodup_append, h, hm]

/-- Membership in the set model after an insertion. -/
theorem mem_setInsert (s : List PyStr) (x y : PyStr) (h : y ∈ setInsert s x) :
    y ∈ s ∨ y = x := by
  unfold setInsert at h
  split_ifs at h with hm
  · exact Or.inl h
  · rcases List.mem_append.1 h with h2 | h2
    · exact Or.inl h2
    · simp at h2
      exact Or.inr h2

/-- Folding `toolFileUpdate` preserves freedom from duplicates. -/
theorem foldl_toolFileUpdate_nodup (ts : List ToolInfo) (files : List PyStr)
    (h : files.Nodup) : (ts.foldl toolFileUpdate files).Nodup := by
  induction ts generalizing files with
  | nil => exact h
  | cons t ts ih =>
      simp only [List.foldl_cons]
      apply ih
      unfold toolFileUpdate
      dsimp only
      split_ifs with hc
      · exact setInsert_nodup _ _ h
      · exact h

/-- Every element of the folded touched-files set contains a path
separator or was already present. -/
theorem foldl_toolFileUpdate_slash (ts : List ToolInfo) (files : List PyStr)
    (h : ∀ y ∈ files, '/' ∈ y) :
    ∀ y ∈ ts.foldl toolFileUpdate files, '/' ∈ y := by
  induction ts generalizing files with
  | nil => exact h
  | cons t ts ih =>
      simp only [List.foldl_cons]
      apply ih
      intro y hy
      unfold toolFileUpdate at hy
      dsimp only at hy
      split_ifs at hy with hc
      · rcases mem_setInsert _ _ _ hy with h2 | h2
        · exact h y h2
        · subst h2; exact hc.2
      · exact h y hy

/-- Every element of the folded touched-files set is some invocation's
`target` or was already present. -/
theorem foldl_toolFileUpdate_mem (ts : List ToolInfo) (files : List PyStr) (y : PyStr)
    (h : y ∈ ts.foldl toolFileUpdate files) :
    y ∈ files ∨ ∃ t ∈ ts, t.target = some y := by
  induction ts generalizing files with
  | nil => exact Or.inl h
  | cons t ts ih =>
      simp only [List.foldl_cons] at h
      rcases ih _ h with h2 | h2
      · unfold toolFileUpdate at h2
        dsimp only at h2
        split_ifs at h2 with hc
        · rcases mem_setInsert _ _ _ h2 with h3 | h3
          · exact Or.inl h3
          · subst h3
            cases ht : t.target with
            | none =>
                rw [ht] at hc
                simp [Option.getD] at hc
            | some s =>
                refine Or.inr ⟨t, by simp, ?_⟩
                rw [ht]
                simp
        · exact Or.inl h2
      · obtain ⟨t2, ht2, htg⟩ := h2
        exact Or.inr ⟨t2, by simp [ht2], htg⟩

/-- A tool record carrying a `target` field was produced by one of the
five path-recording tools. -/
theorem extract_tool_call_target (name : PyStr) (inp : ToolInput) (s : PyStr)
    (h : (extract_tool_call name inp).target = some s) :
    targetToolName (extract_tool_call name inp).name := by
  unfold targetToolName
  unfold extract_tool_call at h ⊢
  split_ifs at h ⊢ with h1 h2 h3 h4 h5 h6 h7 <;> simp_all <;> tauto

/-- Every record of a session's tool-invocation list was produced by
`extract_tool_call`. -/
theorem mem_session_tool_infos (lines : List Line) (t : ToolInfo)
    (h : t ∈ session_tool_infos lines) :
    ∃ name inp, t = extract_tool_call name inp := by
  unfold session_tool_infos at h
  rw [List.mem_flatMap] at h
  obtain ⟨l, hl, ht⟩ := h
  cases l with
  | blank => simp [lineToolInfos] at ht
  | bad => simp [lineToolInfos] at ht
  | good e =>
      rw [show lineToolInfos (Line.good e)
          = (if e.type = some "assistant".data then extract_tool_calls e.message.content
              else []) from rfl] at ht
      split_ifs at ht with he
      · unfold extract_tool_calls at ht
        cases hc : e.message.content with
        | str s => rw [hc] at ht; simp at ht
        | other => rw [hc] at ht; simp at ht
        | blocks bs =>
            rw [hc] at ht
            rw [List.mem_flatMap] at ht
            obtain ⟨b, hb, htb⟩ := ht
            cases b with
            | tool_use nm inp =>
                simp only [List.mem_singleton] at htb
                exact ⟨nm.getD "unknown".data, inp, htb⟩
            | str s => simp at htb
            | text s => simp at htb
            | thinking s => simp at htb
            | other => simp at htb
      · simp at ht

/-- The accumulated touched-files set of a whole log, as a fold of
`toolFileUpdate` over the session's tool invocations. -/
theorem session_files_eq (lines : List Line) :
    (lines.foldl processLine {}).files_touched
      = (session_tool_infos lines).foldl toolFileUpdate [] := by
  simpa using foldl_processLine_files lines {}

/-- C8: the files-touched list of every session summary is sorted,
deduplicated, contains only entries with a path separator, and has at
most MAX_FILES_TOUCHED entries. -/
theorem c8_files_touched (lines : List Line) :
    List.Sorted (· ≤ ·) (process_session lines).1.files_touched
    ∧ (process_session lines).1.files_touched.Nodup
    ∧ (∀ x ∈ (process_session lines).1.files_touched, '/' ∈ x)
    ∧ (process_session lines).1.files_touched.length ≤ MAX_FILES_TOUCHED := by
  have hfiles : (process_session lines).1.files_touched
      = ((lines.foldl processLine {}).files_touched.insertionSort (· ≤ ·)).take
          MAX_FILES_TOUCHED := rfl
  have hnodup : (lines.foldl processLine {}).files_touched.Nodup := by
    rw [session_files_eq]
    exact foldl_toolFileUpdate_nodup _ _ List.nodup_nil
  refine ⟨?_, ?_, ?_, ?_⟩
  · rw [hfiles]
    exact List.Pairwise.sublist (List.take_sublist _ _) (List.sorted_insertionSort _ _)
  · rw [hfiles]
    exact List.Nodup.sublist (List.take_sublist _ _)
      ((List.perm_insertionSort _ _).symm.nodup hnodup)
  · intro x hx
    rw [hfiles] at hx
    have hx2 := List.take_subset _ _ hx
    have hx3 : x ∈ (lines.foldl processLine {}).files_touched :=
      (List.perm_insertionSort _ _).subset hx2
    rw [session_files_eq] at hx3
    exact foldl_toolFileUpdate_slash _ [] (by simp) x hx3
  · rw [hfiles]
    exact List.length_take_le _ _

/-- Witness for C8 at a concrete log with one qualifying Read target. -/
theorem c8_files_touched_witness :
    "src/a".data ∈ (process_session c10_demo_log).1.files_touched
    ∧ '/' ∈ "src/a".data :=
  ⟨by decide, (c8_files_touched c10_demo_log).2.2.1 "src/a".data (by decide)⟩

/-- C10: every element of the files-touched list originates from the
`target` field of a Read, Glob, Grep, Edit or Write invocation; Bash
commands, WebSearch queries, WebFetch URLs and Task descriptions carry
no `target` and can never enter the set. -/
theorem c10_files_provenance (lines : List Line) :
    ∀ x ∈ (process_session lines).1.files_touched,
      ∃ t ∈ session_tool_infos lines, t.target = some x ∧ targetToolName t.name := by
  intro x hx
  have hx2 := List.take_subset _ _ hx
  have hx3 : x ∈ (lines.foldl processLine {}).files_touched :=
    (List.perm_insertionSort _ _).subset hx2
  rw [session_files_eq] at hx3
  rcases foldl_toolFileUpdate_mem _ _ _ hx3 with h0 | ⟨t, ht, htg⟩
  · simp at h0
  · obtain ⟨name, inp, rfl⟩ := mem_session_tool_infos lines t ht
    exact ⟨_, ht, htg, extract_tool_call_target _ _ _ htg⟩

/-- Witness for C10 at a concrete log with a Read target and a Bash
command containing a path separator: the set holds only the Read
target, and the theorem traces it to a target-carrying invocation. -/
theorem c10_files_provenance_witness :
    (process_session c10_demo_log).1.files_touched = ["src/a".data]
    ∧ ∃ t ∈ session_tool_infos c10_demo_log,
        t.target = some "src/a".data ∧ targetToolName t.name :=
  ⟨by decide, c10_files_provenance c10_demo_log "src/a".data (by decide)⟩

/-- The while loop runs no iteration when the exchange cap is zero. -/
theorem build_flow_zero (us bs : List PyStr) : build_conversation_flow us bs 0 = [] := by
  cases us <;> cases bs <;> rfl

/-- The flow holds one user turn per iteration: min of the user-stream
length and the exchange cap. -/
theorem flow_count_user (us bs : List PyStr) (n : Nat) :
    countRole (build_conversation_flow us bs n) .user = min us.length n := by
  induction us generalizing bs n with
  | nil => simp [build_conversation_flow, countRole]
  | cons u us ih =>
      cases n with
      | zero => simp [build_flow_zero, countRole]
      | succ n =>
          cases bs with
          | nil =>
              simp only [build_conversation_flow, countRole, List.filter_cons] at ih ⊢
              simp [ih]
              omega
          | cons b bs =>
              simp only [build_conversation_flow, countRole, List.filter_cons] at ih ⊢
              simp [ih]
              omega

/-- The flow holds one assistant turn per iteration that still has
assistant text: min of the iteration count and the assistant-stream
length. -/
theorem flow_count_assistant (us bs : List PyStr) (n : Nat) :
    countRole (build_conversation_flow us bs n) .assistant
      = min (min us.length n) bs.length := by
  induction us generalizing bs n with
  | nil => simp [build_conversation_flow, countRole]
  | cons u us ih =>
      cases n with
      | zero => simp [build_flow_zero, countRole]
      | succ n =>
          cases bs with
          | nil =>
              simp only [build_conversation_flow, countRole, List.filter_cons] at ih ⊢
              simp [ih]
          | cons b bs =>
              simp only [build_conversation_flow, countRole, List.filter_cons] at ih ⊢
              simp [ih]
              omega

/-- The flow never exceeds two entries per allowed exchange. -/
theorem flow_length_le (us bs : List PyStr) (n : Nat) :
    (build_conversation_flow us bs n).length ≤ 2 * n := by
  induction us generalizing bs n with
  | nil => simp [build_conversation_flow]
  | cons u us ih =>
      cases n with
      | zero => simp [build_flow_zero]
      | succ n =>
          cases bs with
          | nil =>
              simp only [build_conversation_flow, List.length_cons]
              have := ih [] n
              omega
          | cons b bs =>
              simp only [build_conversation_flow, List.length_cons]
              have := ih bs n
              omega

/-- The flow strictly alternates starting with a user turn whenever the
assistant stream runs out no earlier than the final iteration. -/
theorem flow_alternates (us bs : List PyStr) (n : Nat)
    (h : min us.length n ≤ bs.length + 1) :
    alternatesFrom .user (flowRoles (build_conversation_flow us bs n)) = true := by
  induction us generalizing bs n with
  | nil => simp [build_conversation_flow, flowRoles, alternatesFrom]
  | cons u us ih =>
      cases n with
      | zero => simp [build_flow_zero, flowRoles, alternatesFrom]
      | succ n =>
          cases bs with
          | nil =>
              simp only [List.length_cons, List.length_nil] at h
              have h0 : us.length = 0 ∨ n = 0 := by omega
              rcases h0 with h0 | h0
              · have h1 := List.length_eq_zero.mp h0
                subst h1
                simp [build_conversation_flow, flowRoles, alternatesFrom]
              · subst h0
                simp [build_conversation_flow, build_flow_zero, flowRoles, alternatesFrom,
                  Role.next]
          | cons b bs =>
              simp only [build_conversation_flow, flowRoles, List.map_cons, alternatesFrom,
                Role.next]
              simp only [List.length_cons] at h
              have h2 := ih bs n (by simp; omega)
              simp [flowRoles] at h2
              simp [h2]

/-- C1 as amended: for every session log the conversation flow has at
most 40 pairs (80 entries); its user-turn count is the minimum of the
user-stream length and the cap (it stops as soon as the user stream is
exhausted); its assistant-turn count is additionally capped by the
assistant-stream length (an exhausted assistant stream leaves the user
turn alone); the flow strictly alternates starting with a user turn
whenever the assistant stream is exhausted at most in the final pair;
and a log yielding 50 user messages and 45 assistant texts produces
exactly 40 user turns and 40 assistant turns. -/
theorem c1_conversation_flow (lines : List Line) :
    (process_session lines).1.conversation_flow.length ≤ 2 * MAX_CONVERSATION_EXCHANGES
    ∧ countRole (process_session lines).1.conversation_flow .user
        = min (lines.foldl processLine {}).user_messages.length MAX_CONVERSATION_EXCHANGES
    ∧ countRole (process_session lines).1.conversation_flow .assistant
        = min (min (lines.foldl processLine {}).user_messages.length MAX_CONVERSATION_EXCHANGES)
            (lines.foldl processLine {}).assistant_texts.length
    ∧ (min (lines.foldl processLine {}).user_messages.length MAX_CONVERSATION_EXCHANGES
          ≤ (lines.foldl processLine {}).assistant_texts.length + 1 →
        alternatesFrom .user (flowRoles (process_session lines).1.conversation_flow) = true)
    ∧ ((lines.foldl processLine {}).user_messages.length = 50 →
        (lines.foldl processLine {}).assistant_texts.length = 45 →
        countRole (process_session lines).1.conversation_flow .user = 40
        ∧ countRole (process_session lines).1.conversation_flow .assistant = 40) := by
  have hflow : (process_session lines).1.conversation_flow
      = build_conversation_flow (lines.foldl processLine {}).user_messages
          (lines.foldl processLine {}).assistant_texts MAX_CONVERSATION_EXCHANGES := rfl
  refine ⟨?_, ?_, ?_, ?_, ?_⟩
  · rw [hflow]; exact flow_length_le _ _ _
  · rw [hflow]; exact flow_count_user _ _ _
  · rw [hflow]; exact flow_count_assistant _ _ _
  · intro h
    rw [hflow]
    exact flow_alternates _ _ _ h
  · intro hu ha
    rw [hflow, flow_count_user, flow_count_assistant, hu, ha]
    exact ⟨by decide, by decide⟩

/-- C1 counterexample: a log with two user messages and no assistant
text yields two consecutive user turns — the conversation flow does not
strictly alternate. -/
theorem c1_counterexample :
    flowRoles (process_session c1_demo_log).1.conversation_flow = [Role.user, Role.user]
    ∧ alternatesFrom Role.user [Role.user, Role.user] = false := by
  decide

set_option maxHeartbeats 4000000 in
/-- Witness for C1 as amended at the spec's 50-user/45-assistant
example. -/
theorem c1_conversation_flow_witness :
    countRole (process_session c1_example_log).1.conversation_flow Role.user = 40
    ∧ countRole (process_session c1_example_log).1.conversation_flow Role.assistant = 40
    ∧ alternatesFrom Role.user
        (flowRoles (process_session c1_example_log).1.conversation_flow) = true := by
  have h := c1_conversation_flow c1_example_log
  refine ⟨(h.2.2.2.2 (by decide) (by decide)).1,
          (h.2.2.2.2 (by decide) (by decide)).2,
          h.2.2.2.1 (by decide)⟩

end DeepInsights
